import Mathlib

/-!
# Request-path resilience layer: token-bucket rate limiter and circuit breaker

Shallow embedding of the resilience subsystem:
* `src/app/commons/rate_limiter.py` — `TokenBucket` (refill/consume, in-memory
  backend, Redis backend with fallback-to-memory on exception);
* `src/examples/fastapi_demo/commons/circuit_breaker.py` — `CircuitBreaker`
  (Closed/Open/HalfOpen state machine, lazy recovery, guarded calls).

Python floats (token counts, timestamps, rates) are modelled as rationals `ℚ`;
Python `time.time()` is modelled by passing the current time `now : ℚ` into
each call (one reading per call).  Python dictionaries keyed by bucket key are
modelled per key: every operation below acts on the state stored for one key,
an `Option (ℚ × ℚ)` that is `none` when the key is absent from the dict.
-/

/-- Python `int()` applied to a float: truncation toward zero. -/
def pyInt (q : ℚ) : ℤ := if 0 ≤ q then ⌊q⌋ else ⌈q⌉

namespace TokenBucket

/-- The configuration part of `TokenBucket` (`rate_limiter.py`, lines 40–53):
`self.capacity` and `self.refill_rate` as stored by `__init__`. -/
structure Cfg where
  capacity : ℚ
  refill_rate : ℚ
deriving DecidableEq

/-- `TokenBucket.__init__` (`rate_limiter.py`, lines 40–53).  The body only
assigns the attributes; it contains no validation and raises nothing, so the
embedded constructor always returns `.ok`. -/
def init (capacity refill_rate : ℚ) : Except String Cfg :=
  Except.ok { capacity := capacity, refill_rate := refill_rate }

/-- `TokenBucket._get_tokens_memory` (`rate_limiter.py`, lines 137–152) acting
on the state stored for one key.  Returns the pair the Python function returns
together with the new stored state `self._buckets[key]`.
A missing key is initialised to `(capacity, now)`; an existing entry is
refilled: `tokens = min(capacity, tokens + elapsed * refill_rate)`. -/
def get_tokens_memory (cap rate now : ℚ) (st : Option (ℚ × ℚ)) :
    (ℚ × ℚ) × (ℚ × ℚ) :=
  match st with
  | none => ((cap, now), (cap, now))
  | some (tokens, last_refill) =>
      let t := min cap (tokens + (now - last_refill) * rate)
      ((t, now), (t, now))

/-- `TokenBucket._consume_token_memory` (`rate_limiter.py`, lines 154–162):
refill via `_get_tokens_memory`, then if `tokens >= 1.0` subtract one token and
store; otherwise leave the refilled entry as stored by the refill.  Returns
`(allowed, new stored state)`. -/
def consume_token_memory (cap rate now : ℚ) (st : Option (ℚ × ℚ)) :
    Bool × (ℚ × ℚ) :=
  let r := get_tokens_memory cap rate now st
  let tokens := r.1.1
  if 1 ≤ tokens then (true, (tokens - 1, now)) else (false, r.2)

/-- The in-memory path of `TokenBucket.consume` (`rate_limiter.py`,
lines 179–185, also the fallback body of lines 170–177):
`allowed = _consume_token_memory(key)`, then `tokens, _ =
_get_tokens_memory(key)`, return `(allowed, int(tokens))`.  Result:
`((allowed, remaining), new stored state)`. -/
def consume_memory (cap rate now : ℚ) (st : Option (ℚ × ℚ)) :
    (Bool × ℤ) × (ℚ × ℚ) :=
  let c := consume_token_memory cap rate now st
  let g := get_tokens_memory cap rate now (some c.2)
  ((c.1, pyInt g.1.1), g.2)

/-- Outcome of one awaited Redis operation: either a value or a raised
exception. -/
inductive RedisOutcome (α : Type) where
  | ok (v : α)
  | exn
deriving DecidableEq

/-- `TokenBucket.consume` (`rate_limiter.py`, lines 164–185).  `redis` is
`none` when `self.redis_client` is `None`; otherwise it carries the behaviour
of the two awaited Redis calls for this invocation:
`_consume_token_redis` (an allowed flag, lines 96–132) and `_get_tokens_redis`
(the token count, lines 55–94).  An exception from either call is caught and
the whole fallback body (`_consume_token_memory` then `_get_tokens_memory`)
runs against the in-memory state. -/
def consume (cap rate now : ℚ)
    (redis : Option (RedisOutcome Bool × RedisOutcome ℚ))
    (st : Option (ℚ × ℚ)) : (Bool × ℤ) × Option (ℚ × ℚ) :=
  match redis with
  | none => let m := consume_memory cap rate now st; (m.1, some m.2)
  | some (rc, rg) =>
      match rc with
      | RedisOutcome.exn => let m := consume_memory cap rate now st; (m.1, some m.2)
      | RedisOutcome.ok allowed =>
          match rg with
          | RedisOutcome.exn => let m := consume_memory cap rate now st; (m.1, some m.2)
          | RedisOutcome.ok tokens => ((allowed, pyInt tokens), st)

/-- Running a sequence of in-memory `consume` calls at the given times,
threading the stored state of one key. -/
def consumeRun (cap rate : ℚ) : List ℚ → Option (ℚ × ℚ) → Option (ℚ × ℚ)
  | [], st => st
  | t :: ts, st => consumeRun cap rate ts (some (consume_memory cap rate t st).2)

end TokenBucket

namespace CircuitBreaker

/-- `CircuitState` (`circuit_breaker.py`, lines 21–25).  `OPEN` is spelled
`opened` because `open` is a Lean keyword. -/
inductive CircuitState where
  | closed
  | opened
  | halfOpen
deriving DecidableEq

/-- `CircuitBreakerConfig` (`circuit_breaker.py`, lines 28–35).  Error kinds
are modelled as naturals; `expected e = true` plays the role of
`isinstance(e, self.config.expected_exception)`. -/
structure Config where
  failure_threshold : ℕ
  success_threshold : ℕ
  timeout_seconds : ℚ
  expected : ℕ → Bool

/-- `CircuitBreakerStats` (`circuit_breaker.py`, lines 38–48). -/
structure Stats where
  failures : ℕ
  successes : ℕ
  total_requests : ℕ
  state_changes : ℕ
  last_failure_time : Option ℚ
  last_success_time : Option ℚ
  opened_at : Option ℚ
deriving DecidableEq

/-- A fresh `CircuitBreakerStats()` (all dataclass defaults). -/
def Stats.initStats : Stats :=
  { failures := 0, successes := 0, total_requests := 0, state_changes := 0,
    last_failure_time := none, last_success_time := none, opened_at := none }

/-- One `CircuitBreaker` instance: `service_name`, `config`, `state`,
`stats` (`circuit_breaker.py`, lines 80–103). -/
structure Breaker where
  service_name : String
  config : Config
  state : CircuitState
  stats : Stats

/-- `CircuitBreaker._transition_to_open` (`circuit_breaker.py`,
lines 118–127): if not already OPEN, set state, record `opened_at = now`,
bump `state_changes`. -/
def transition_to_open (now : ℚ) (b : Breaker) : Breaker :=
  if b.state ≠ CircuitState.opened then
    { b with state := CircuitState.opened,
             stats := { b.stats with opened_at := some now,
                                     state_changes := b.stats.state_changes + 1 } }
  else b

/-- `CircuitBreaker._transition_to_half_open` (`circuit_breaker.py`,
lines 129–138): if not already HALF_OPEN, set state, reset `successes = 0`,
bump `state_changes`. -/
def transition_to_half_open (b : Breaker) : Breaker :=
  if b.state ≠ CircuitState.halfOpen then
    { b with state := CircuitState.halfOpen,
             stats := { b.stats with successes := 0,
                                     state_changes := b.stats.state_changes + 1 } }
  else b

/-- `CircuitBreaker._transition_to_closed` (`circuit_breaker.py`,
lines 140–149): if not already CLOSED, set state, reset `failures = 0`,
bump `state_changes`. -/
def transition_to_closed (b : Breaker) : Breaker :=
  if b.state ≠ CircuitState.closed then
    { b with state := CircuitState.closed,
             stats := { b.stats with failures := 0,
                                     state_changes := b.stats.state_changes + 1 } }
  else b

/-- `CircuitBreaker._should_attempt_recovery` (`circuit_breaker.py`,
lines 151–160): OPEN, `opened_at` set, and `now - opened_at >=
timeout_seconds`. -/
def should_attempt_recovery (now : ℚ) (b : Breaker) : Bool :=
  if b.state = CircuitState.opened then
    match b.stats.opened_at with
    | none => false
    | some t => decide (now - t ≥ b.config.timeout_seconds)
  else false

/-- The `retry_after` computed on the rejection path of `CircuitBreaker.call`
(`circuit_breaker.py`, lines 194–198).  Python's `if self.stats.opened_at:`
is truthiness: both `None` and `0.0` leave `retry_after = None`. -/
def retry_after_of (now : ℚ) (b : Breaker) : Option ℚ :=
  match b.stats.opened_at with
  | none => none
  | some t =>
      if t = 0 then none
      else some (max 0 (b.config.timeout_seconds - (now - t)))

/-- Outcome of the wrapped operation, were it to be invoked: a return value,
or a raised error of kind `e`. -/
inductive Outcome where
  | ok (v : ℤ)
  | err (e : ℕ)
deriving DecidableEq

/-- What `CircuitBreaker.call` does for the caller: return the operation's
value, raise `CircuitBreakerError(service_name, retry_after)`, or re-raise the
operation's error. -/
inductive CallResult where
  | ok (v : ℤ)
  | rejected (service_name : String) (retry_after : Option ℚ)
  | raised (e : ℕ)
deriving DecidableEq

/-- Events of one `call`, in program order: taking and releasing
`self._lock` (the span of `async with self._lock:`), raising the rejection,
and invoking the wrapped operation `func`. -/
inductive Ev where
  | acquire
  | reject
  | invoke
  | release
deriving DecidableEq

/-- Result of one `CircuitBreaker.call`: the breaker afterwards, what the
caller sees, and the ordered event trace. -/
structure CallOut where
  post : Breaker
  result : CallResult
  trace : List Ev

/-- The admission prefix of `CircuitBreaker.call` (`circuit_breaker.py`,
lines 183–200): inside the lock, first the lazy recovery check (possibly
transitioning OPEN → HALF_OPEN), then rejection with
`CircuitBreakerError(service_name, retry_after)` if the state is still OPEN.
Returns the breaker after this prefix and the rejection, if any. -/
def admitStep (now : ℚ) (b : Breaker) : Breaker × Option (String × Option ℚ) :=
  let b1 := if should_attempt_recovery now b then transition_to_half_open b else b
  if b1.state = CircuitState.opened then
    (b1, some (b1.service_name, retry_after_of now b1))
  else (b1, none)

/-- `CircuitBreaker.call` (`circuit_breaker.py`, lines 164–245).  The whole
body runs under `async with self._lock:`; `o` is the behaviour of the wrapped
operation `func` on this invocation.  After admission: on success, bump
`successes`/`total_requests`, set `last_success_time`, and close from
HALF_OPEN once `successes >= success_threshold`; on an error caught by
`except self.config.expected_exception`, bump `failures`/`total_requests`,
set `last_failure_time`, open when `failures >= failure_threshold` or when in
HALF_OPEN, and re-raise; an error of any other kind propagates without
entering the handler. -/
def call (now : ℚ) (b : Breaker) (o : Outcome) : CallOut :=
  match admitStep now b with
  | (b1, some r) =>
      { post := b1, result := CallResult.rejected r.1 r.2,
        trace := [Ev.acquire, Ev.reject, Ev.release] }
  | (b1, none) =>
      match o with
      | Outcome.ok v =>
          let b2 := { b1 with stats :=
            { b1.stats with successes := b1.stats.successes + 1,
                            total_requests := b1.stats.total_requests + 1,
                            last_success_time := some now } }
          let b3 :=
            if b2.state = CircuitState.halfOpen ∧
                b2.stats.successes ≥ b2.config.success_threshold then
              transition_to_closed b2
            else b2
          { post := b3, result := CallResult.ok v,
            trace := [Ev.acquire, Ev.invoke, Ev.release] }
      | Outcome.err e =>
          if b1.config.expected e then
            let b2 := { b1 with stats :=
              { b1.stats with failures := b1.stats.failures + 1,
                              total_requests := b1.stats.total_requests + 1,
                              last_failure_time := some now } }
            let b3 :=
              if b2.stats.failures ≥ b2.config.failure_threshold then
                transition_to_open now b2
              else b2
            let b4 :=
              if b3.state = CircuitState.halfOpen then transition_to_open now b3
              else b3
            { post := b4, result := CallResult.raised e,
              trace := [Ev.acquire, Ev.invoke, Ev.release] }
          else
            { post := b1, result := CallResult.raised e,
              trace := [Ev.acquire, Ev.invoke, Ev.release] }

/-- `True` when some `release` event precedes some `invoke` event in the
trace: the lock was let go before the wrapped operation ran. -/
def releasedBeforeInvoke (tr : List Ev) : Bool :=
  (tr.dropWhile (fun e => e ≠ Ev.release)).contains Ev.invoke

/-- A sequence of guarded calls on one breaker: each list entry is the time of
the call and the behaviour of the wrapped operation on that call. -/
def callRun (b : Breaker) : List (ℚ × Outcome) → Breaker
  | [] => b
  | (t, o) :: rest => callRun (call t b o).post rest

/-- A concrete configuration used for counterexamples and witnesses:
`failure_threshold = 3`, `success_threshold = 2`, `timeout_seconds = 10`,
and only error kind `0` is an instance of `expected_exception`. -/
def demoCfg : Config :=
  { failure_threshold := 3, success_threshold := 2, timeout_seconds := 10,
    expected := fun e => e == 0 }

/-- A concrete breaker that is OPEN since time 5 with three recorded
successes. -/
def demoOpenBreaker : Breaker :=
  { service_name := "svc", config := demoCfg, state := CircuitState.opened,
    stats := { Stats.initStats with successes := 3, opened_at := some 5 } }

/-- A concrete breaker in its freshly constructed CLOSED state. -/
def demoClosedBreaker : Breaker :=
  { service_name := "svc", config := demoCfg, state := CircuitState.closed,
    stats := Stats.initStats }

end CircuitBreaker

namespace TokenBucket

theorem pyInt_eq_floor {q : ℚ} (h : 0 ≤ q) : pyInt q = ⌊q⌋ := by
  simp [pyInt, h]

/-- Shared helper: the in-memory `consume` path first refills (the value
`_get_tokens_memory` would return), then spends one token when at least one
is available; the stored state afterwards is the resulting count stamped with
`now`. -/
theorem consume_memory_eq (cap rate now : ℚ) (st : Option (ℚ × ℚ))
    (hcap : 0 ≤ cap) (hrate : 0 ≤ rate)
    (hst : ∀ tok last, st = some (tok, last) → 0 ≤ tok ∧ last ≤ now) :
    consume_memory cap rate now st =
      if 1 ≤ (get_tokens_memory cap rate now st).1.1 then
        ((true, ⌊(get_tokens_memory cap rate now st).1.1 - 1⌋),
          ((get_tokens_memory cap rate now st).1.1 - 1, now))
      else
        ((false, ⌊(get_tokens_memory cap rate now st).1.1⌋),
          ((get_tokens_memory cap rate now st).1.1, now)) := by
  cases st with
  | none =>
      by_cases h1 : (1:ℚ) ≤ cap
      · have h0 : (0:ℚ) ≤ cap - 1 := by linarith
        have hmin : min cap (cap - 1 + (now - now) * rate) = cap - 1 := by
          rw [sub_self, zero_mul, add_zero]
          exact min_eq_right (by linarith)
        simp [consume_memory, consume_token_memory, get_tokens_memory, h1, hmin,
          pyInt_eq_floor h0]
      · have hmin : min cap (cap + (now - now) * rate) = cap := by
          rw [sub_self, zero_mul, add_zero]
          exact min_eq_right le_rfl
        simp [consume_memory, consume_token_memory, get_tokens_memory, h1, hmin,
          pyInt_eq_floor hcap]
  | some p =>
      obtain ⟨tok, last⟩ := p
      obtain ⟨htok, hlast⟩ := hst tok last rfl
      have hel : 0 ≤ (now - last) * rate :=
        mul_nonneg (by linarith) hrate
      have hr0 : 0 ≤ min cap (tok + (now - last) * rate) :=
        le_min hcap (by linarith)
      have hrc : min cap (tok + (now - last) * rate) ≤ cap := min_le_left _ _
      set r := min cap (tok + (now - last) * rate) with hrdef
      by_cases h1 : (1:ℚ) ≤ r
      · have h0 : (0:ℚ) ≤ r - 1 := by linarith
        have hmin : min cap (r - 1 + (now - now) * rate) = r - 1 := by
          rw [sub_self, zero_mul, add_zero]
          exact min_eq_right (by linarith)
        simp only [consume_memory, consume_token_memory, get_tokens_memory,
          ← hrdef, h1, if_pos, hmin]
        simp [h1, hmin, pyInt_eq_floor h0]
      · have hmin : min cap (r + (now - now) * rate) = r := by
          rw [sub_self, zero_mul, add_zero]
          exact min_eq_right hrc
        simp only [consume_memory, consume_token_memory, get_tokens_memory,
          ← hrdef]
        simp [h1, hmin, min_eq_right hrc, pyInt_eq_floor hr0, hrc]

end TokenBucket

namespace TokenBucket

/-- Shared helper: one in-memory `consume` leaves the stored token count in
`[0, capacity]` and stamps the entry with `now`. -/
theorem consume_memory_bounds (cap rate now : ℚ) (st : Option (ℚ × ℚ))
    (hcap : 0 ≤ cap) (hrate : 0 ≤ rate)
    (hst : ∀ tok last, st = some (tok, last) → 0 ≤ tok ∧ tok ≤ cap ∧ last ≤ now) :
    0 ≤ (consume_memory cap rate now st).2.1 ∧
      (consume_memory cap rate now st).2.1 ≤ cap ∧
      (consume_memory cap rate now st).2.2 = now := by
  have heq := consume_memory_eq cap rate now st hcap hrate
    (fun tok last h => ⟨(hst tok last h).1, (hst tok last h).2.2⟩)
  have href : 0 ≤ (get_tokens_memory cap rate now st).1.1 ∧
      (get_tokens_memory cap rate now st).1.1 ≤ cap := by
    cases st with
    | none => simpa [get_tokens_memory] using hcap
    | some p =>
        obtain ⟨tok, last⟩ := p
        obtain ⟨htok, htc, hlast⟩ := hst tok last rfl
        have hel : 0 ≤ (now - last) * rate := mul_nonneg (by linarith) hrate
        simp only [get_tokens_memory]
        exact ⟨le_min hcap (by linarith), min_le_left _ _⟩
  by_cases h1 : 1 ≤ (get_tokens_memory cap rate now st).1.1
  · rw [heq, if_pos h1]
    refine ⟨?_, ?_, rfl⟩
    · show (0:ℚ) ≤ (get_tokens_memory cap rate now st).1.1 - 1
      linarith
    · show (get_tokens_memory cap rate now st).1.1 - 1 ≤ cap
      linarith [href.2]
  · rw [heq, if_neg h1]
    exact ⟨href.1, href.2, rfl⟩

/-- Shared helper: the bucket bound holds along any time-nondecreasing run of
in-memory `consume` calls, from any stored state already within bounds whose
stamp precedes the first call. -/
theorem consumeRun_bounds (cap rate : ℚ) (hcap : 0 ≤ cap) (hrate : 0 ≤ rate)
    (ts : List ℚ) :
    ∀ (st : Option (ℚ × ℚ)),
      ts.Chain' (· ≤ ·) →
      (∀ tok last, st = some (tok, last) →
        0 ≤ tok ∧ tok ≤ cap ∧ ∀ u, ts.head? = some u → last ≤ u) →
      ∀ i, i < ts.length →
        ∃ tok last, consumeRun cap rate (ts.take (i + 1)) st = some (tok, last) ∧
          0 ≤ tok ∧ tok ≤ cap := by
  induction ts with
  | nil => intro st _ _ i hi; simp at hi
  | cons t ts ih =>
      intro st hchain hst i hi
      have hstep := consume_memory_bounds cap rate t st hcap hrate
        (fun tok last h => ⟨(hst tok last h).1, (hst tok last h).2.1,
          (hst tok last h).2.2 t (by simp)⟩)
      obtain ⟨hchain_head, hchain_tail⟩ := List.chain'_cons'.mp hchain
      cases i with
      | zero =>
          refine ⟨(consume_memory cap rate t st).2.1,
            (consume_memory cap rate t st).2.2, ?_, hstep.1, hstep.2.1⟩
          simp [consumeRun]
      | succ j =>
          have hj : j < ts.length := by simpa using hi
          have hst2 : ∀ tok last,
              some (consume_memory cap rate t st).2 = some (tok, last) →
              0 ≤ tok ∧ tok ≤ cap ∧ ∀ u, ts.head? = some u → last ≤ u := by
            intro tok last h
            rw [Option.some_inj] at h
            rw [h] at hstep
            refine ⟨hstep.1, hstep.2.1, ?_⟩
            intro u hu
            have htu : t ≤ u := hchain_head u hu
            have hlt : last = t := hstep.2.2
            linarith
          have := ih (some (consume_memory cap rate t st).2) hchain_tail hst2 j hj
          simpa [consumeRun] using this

/-- **C1.**  `TokenBucket.consume` on the local backend first refills the
bucket for the key (`tokens = min(capacity, tokens + elapsed * refill_rate)`,
stamp `now`; a fresh key starts at `capacity`), and then: if the refilled
count is at least `1.0` it subtracts one token and returns
`(true, floor(tokens))`; otherwise it leaves the refilled count unchanged and
returns `(false, floor(tokens))`.  Hypotheses: any state the bucket can
actually store (nonnegative token count, stamp not after `now`) under a
nonnegative configuration. -/
theorem consume_refill_then_spend (cap rate now : ℚ) (st : Option (ℚ × ℚ))
    (hcap : 0 ≤ cap) (hrate : 0 ≤ rate)
    (hst : ∀ tok last, st = some (tok, last) → 0 ≤ tok ∧ last ≤ now) :
    consume cap rate now none st =
      if 1 ≤ (get_tokens_memory cap rate now st).1.1 then
        ((true, ⌊(get_tokens_memory cap rate now st).1.1 - 1⌋),
          some ((get_tokens_memory cap rate now st).1.1 - 1, now))
      else
        ((false, ⌊(get_tokens_memory cap rate now st).1.1⌋),
          some ((get_tokens_memory cap rate now st).1.1, now)) := by
  have h := consume_memory_eq cap rate now st hcap hrate hst
  by_cases h1 : 1 ≤ (get_tokens_memory cap rate now st).1.1 <;>
    simp [consume, h, h1]

/-- Witness for **C1**: capacity 10, rate 1, key stored as `(3, 2)` and read
at time 5 refills to `min 10 (3 + 3·1) = 6`, spends one token, and returns
`(true, 5)` with stored state `(5, 5)`. -/
theorem consume_refill_then_spend_witness :
    (0:ℚ) ≤ 10 ∧ (0:ℚ) ≤ 1 ∧
      consume 10 1 5 none (some (3, 2)) = ((true, 5), some (5, 5)) := by
  refine ⟨by norm_num, by norm_num, ?_⟩
  have h := consume_refill_then_spend 10 1 5 (some (3, 2)) (by norm_num)
    (by norm_num)
    (by
      intro tok last h
      simp only [Option.some_inj, Prod.mk.injEq] at h
      obtain ⟨h1, h2⟩ := h
      exact ⟨by rw [← h1]; norm_num, by rw [← h2]; norm_num⟩)
  rw [h]
  norm_num [get_tokens_memory]

/-- **C2.**  Along any sequence of local-backend `consume` calls at
nondecreasing times, starting from an absent key, the stored token count
satisfies `0 ≤ tokens ≤ capacity` after every call. -/
theorem bucket_bound (cap rate : ℚ) (ts : List ℚ)
    (hcap : 0 ≤ cap) (hrate : 0 ≤ rate) (hchain : ts.Chain' (· ≤ ·)) :
    ∀ i, i < ts.length →
      ∃ tok last, consumeRun cap rate (ts.take (i + 1)) none = some (tok, last) ∧
        0 ≤ tok ∧ tok ≤ cap :=
  consumeRun_bounds cap rate hcap hrate ts none hchain
    (by intro tok last h; simp at h)

/-- Witness for **C2**: capacity 2, rate 1, three calls at times 0, 0, 1. -/
theorem bucket_bound_witness :
    (0:ℚ) ≤ 2 ∧ (0:ℚ) ≤ 1 ∧ ([0, 0, 1] : List ℚ).Chain' (· ≤ ·) ∧
      (∀ i, i < ([0, 0, 1] : List ℚ).length →
        ∃ tok last,
          consumeRun 2 1 (([0, 0, 1] : List ℚ).take (i + 1)) none =
            some (tok, last) ∧ 0 ≤ tok ∧ tok ≤ 2) := by
  refine ⟨by norm_num, by norm_num, ?_, ?_⟩
  · norm_num [List.chain'_cons, List.chain'_singleton]
  · exact bucket_bound 2 1 [0, 0, 1] (by norm_num) (by norm_num)
      (by norm_num [List.chain'_cons, List.chain'_singleton])

/-- **C3 counterexample.**  The claim says a `TokenBucket` with
`capacity ≤ 0` is rejected at construction; but `__init__` performs no
validation: constructing with `capacity = 0` (and `refill_rate = 1`)
succeeds. -/
theorem init_zero_capacity_succeeds :
    (0:ℚ) ≤ 0 ∧ init 0 1 = Except.ok { capacity := 0, refill_rate := 1 } :=
  ⟨le_refl 0, rfl⟩

/-- **C3 amended.**  `TokenBucket.__init__` accepts every `capacity` and
`refill_rate`, including nonpositive ones: construction always succeeds and
stores the arguments unvalidated. -/
theorem init_never_fails (capacity refill_rate : ℚ) :
    init capacity refill_rate =
      Except.ok { capacity := capacity, refill_rate := refill_rate } := rfl

/-- **C4.**  When the distributed backend raises on every call (already the
first awaited Redis operation raises), `consume` does not propagate the
exception: it returns exactly what the local in-memory backend computes for
that call, i.e. the same result and state as `consume` with no Redis client
at all. -/
theorem consume_redis_down_falls_back (cap rate now : ℚ) (st : Option (ℚ × ℚ)) :
    consume cap rate now (some (RedisOutcome.exn, RedisOutcome.exn)) st =
        consume cap rate now none st ∧
      consume cap rate now (some (RedisOutcome.exn, RedisOutcome.exn)) st =
        ((consume_memory cap rate now st).1, some (consume_memory cap rate now st).2) :=
  ⟨rfl, rfl⟩

end TokenBucket

namespace CircuitBreaker

/-- Shared helper: outside OPEN there is nothing to recover from, so the
admission prefix changes nothing and admits the call. -/
theorem admitStep_of_not_opened (now : ℚ) (b : Breaker)
    (h : b.state ≠ CircuitState.opened) : admitStep now b = (b, none) := by
  have hrec : should_attempt_recovery now b = false := by
    simp [should_attempt_recovery, h]
  simp [admitStep, hrec, h]

/-- Shared helper: an OPEN breaker whose recovery timeout has elapsed is moved
to HALF_OPEN (successes reset, one state change) by the admission prefix, and
the call is admitted. -/
theorem admitStep_recovers (now t : ℚ) (b : Breaker)
    (hs : b.state = CircuitState.opened) (hoa : b.stats.opened_at = some t)
    (hle : b.config.timeout_seconds ≤ now - t) :
    admitStep now b =
      ({ b with
          state := CircuitState.halfOpen,
          stats := { b.stats with
              successes := 0,
              state_changes := b.stats.state_changes + 1 } },
        none) := by
  have hrec : should_attempt_recovery now b = true := by
    simp [should_attempt_recovery, hs, hoa]
    linarith
  simp [admitStep, hrec, transition_to_half_open, hs]

/-- Shared helper: an OPEN breaker whose recovery timeout has not elapsed is
left untouched by the admission prefix and the call is rejected with the
breaker's `retry_after`. -/
theorem admitStep_rejects (now t : ℚ) (b : Breaker)
    (hs : b.state = CircuitState.opened) (hoa : b.stats.opened_at = some t)
    (hlt : now - t < b.config.timeout_seconds) :
    admitStep now b = (b, some (b.service_name, retry_after_of now b)) := by
  have hrec : should_attempt_recovery now b = false := by
    simp [should_attempt_recovery, hs, hoa]
    linarith
  simp [admitStep, hrec, hs]

/-- Shared helper: whenever the admission prefix rejects, it has not modified
the breaker. -/
theorem admitStep_of_rejecting (now : ℚ) (b : Breaker) (p : String × Option ℚ)
    (h : (admitStep now b).2 = some p) : (admitStep now b).1 = b := by
  by_cases hrec : should_attempt_recovery now b
  · have hbs : b.state = CircuitState.opened := by
      by_contra hne
      simp [should_attempt_recovery, hne] at hrec
    simp [admitStep, hrec, transition_to_half_open, hbs] at h
  · simp only [admitStep, hrec, if_false, Bool.false_eq_true]
    split <;> rfl

/-- Shared helper: an admitted call executes the wrapped operation, and its
trace is acquire–invoke–release. -/
theorem call_trace_of_admitted (now : ℚ) (b : Breaker) (o : Outcome)
    (h : (admitStep now b).2 = none) :
    (call now b o).trace = [Ev.acquire, Ev.invoke, Ev.release] := by
  rcases hA : admitStep now b with ⟨b1, r⟩
  rw [hA] at h
  simp only at h
  subst h
  cases o with
  | ok v => simp [call, hA]
  | err e =>
      simp only [call, hA]
      split <;> rfl

/-- Shared helper: a rejected call executes nothing; its trace is
acquire–reject–release. -/
theorem call_trace_of_rejected (now : ℚ) (b : Breaker) (o : Outcome)
    (p : String × Option ℚ) (h : (admitStep now b).2 = some p) :
    (call now b o).trace = [Ev.acquire, Ev.reject, Ev.release] := by
  rcases hA : admitStep now b with ⟨b1, r⟩
  rw [hA] at h
  simp only at h
  subst h
  simp [call, hA]

/-- Shared helper: a classified failure observed in CLOSED state increments
`failures`/`total_requests`, stamps `last_failure_time`, and opens the circuit
(recording `opened_at = now`) exactly when the new count reaches the
threshold. -/
theorem call_closed_classified_failure (now : ℚ) (b : Breaker) (e : ℕ)
    (hs : b.state = CircuitState.closed) (he : b.config.expected e = true) :
    call now b (Outcome.err e) =
      if b.config.failure_threshold ≤ b.stats.failures + 1 then
        { post := { b with
              state := CircuitState.opened,
              stats := { b.stats with
                  failures := b.stats.failures + 1,
                  total_requests := b.stats.total_requests + 1,
                  last_failure_time := some now,
                  opened_at := some now,
                  state_changes := b.stats.state_changes + 1 } },
          result := CallResult.raised e,
          trace := [Ev.acquire, Ev.invoke, Ev.release] }
      else
        { post := { b with
              stats := { b.stats with
                  failures := b.stats.failures + 1,
                  total_requests := b.stats.total_requests + 1,
                  last_failure_time := some now } },
          result := CallResult.raised e,
          trace := [Ev.acquire, Ev.invoke, Ev.release] } := by
  have hA := admitStep_of_not_opened now b (by rw [hs]; intro hc; cases hc)
  by_cases hth : b.config.failure_threshold ≤ b.stats.failures + 1
  · simp [call, hA, he, hth, transition_to_open, hs]
  · simp [call, hA, he, hth, transition_to_open, hs]

/-- Shared helper: a success observed in HALF_OPEN state increments
`successes`/`total_requests`, stamps `last_success_time`, and closes the
circuit (zeroing `failures`) exactly when the new count reaches the
threshold. -/
theorem call_half_open_success (now : ℚ) (b : Breaker) (v : ℤ)
    (hs : b.state = CircuitState.halfOpen) :
    call now b (Outcome.ok v) =
      if b.config.success_threshold ≤ b.stats.successes + 1 then
        { post := { b with
              state := CircuitState.closed,
              stats := { b.stats with
                  successes := b.stats.successes + 1,
                  total_requests := b.stats.total_requests + 1,
                  last_success_time := some now,
                  failures := 0,
                  state_changes := b.stats.state_changes + 1 } },
          result := CallResult.ok v,
          trace := [Ev.acquire, Ev.invoke, Ev.release] }
      else
        { post := { b with
              stats := { b.stats with
                  successes := b.stats.successes + 1,
                  total_requests := b.stats.total_requests + 1,
                  last_success_time := some now } },
          result := CallResult.ok v,
          trace := [Ev.acquire, Ev.invoke, Ev.release] } := by
  have hA := admitStep_of_not_opened now b (by rw [hs]; intro hc; cases hc)
  by_cases hth : b.config.success_threshold ≤ b.stats.successes + 1
  · simp [call, hA, hth, transition_to_closed, hs]
  · simp [call, hA, hth, hs]

end CircuitBreaker

namespace CircuitBreaker

/-- **C5.**  With `failure_threshold = 3` and a breaker starting CLOSED with
zero failures, three consecutive classified failures open the circuit and
record `opened_at` at the time of the third failure; a fourth call issued
before the recovery timeout elapses is rejected with
`CircuitBreakerError(service_name, retry_after)` and its trace contains no
invocation of the wrapped operation. -/
theorem three_failures_open_then_reject
    (name : String) (cfg : Config) (s0 : Stats)
    (hth : cfg.failure_threshold = 3) (hf0 : s0.failures = 0)
    (e1 e2 e3 : ℕ)
    (he1 : cfg.expected e1 = true) (he2 : cfg.expected e2 = true)
    (he3 : cfg.expected e3 = true)
    (t1 t2 t3 t4 : ℚ) (h4 : t4 - t3 < cfg.timeout_seconds) (o4 : Outcome)
    (b3 : Breaker)
    (hb3 : b3 = callRun ⟨name, cfg, CircuitState.closed, s0⟩
      [(t1, Outcome.err e1), (t2, Outcome.err e2), (t3, Outcome.err e3)]) :
    b3.state = CircuitState.opened ∧
    b3.stats.opened_at = some t3 ∧
    (call t4 b3 o4).result = CallResult.rejected name (retry_after_of t4 b3) ∧
    Ev.invoke ∉ (call t4 b3 o4).trace := by
  subst hb3
  have h1 : (call t1 (⟨name, cfg, CircuitState.closed, s0⟩ : Breaker)
        (Outcome.err e1)).post
      = ⟨name, cfg, CircuitState.closed,
          { s0 with
              failures := s0.failures + 1,
              total_requests := s0.total_requests + 1,
              last_failure_time := some t1 }⟩ := by
    rw [call_closed_classified_failure t1 _ e1 rfl he1,
      if_neg (by simp [hth, hf0])]
  have h2 : (call t2 (⟨name, cfg, CircuitState.closed,
        { s0 with
            failures := s0.failures + 1,
            total_requests := s0.total_requests + 1,
            last_failure_time := some t1 }⟩ : Breaker) (Outcome.err e2)).post
      = ⟨name, cfg, CircuitState.closed,
          { s0 with
              failures := s0.failures + 1 + 1,
              total_requests := s0.total_requests + 1 + 1,
              last_failure_time := some t2 }⟩ := by
    rw [call_closed_classified_failure t2 _ e2 rfl he2,
      if_neg (by simp [hth, hf0])]
  have h3 : (call t3 (⟨name, cfg, CircuitState.closed,
        { s0 with
            failures := s0.failures + 1 + 1,
            total_requests := s0.total_requests + 1 + 1,
            last_failure_time := some t2 }⟩ : Breaker) (Outcome.err e3)).post
      = ⟨name, cfg, CircuitState.opened,
          { s0 with
              failures := s0.failures + 1 + 1 + 1,
              total_requests := s0.total_requests + 1 + 1 + 1,
              last_failure_time := some t3,
              opened_at := some t3,
              state_changes := s0.state_changes + 1 }⟩ := by
    rw [call_closed_classified_failure t3 _ e3 rfl he3,
      if_pos (by simp [hth, hf0])]
  simp only [callRun]
  rw [h1, h2, h3]
  have hA := admitStep_rejects t4 t3
    (⟨name, cfg, CircuitState.opened,
      { s0 with
          failures := s0.failures + 1 + 1 + 1,
          total_requests := s0.total_requests + 1 + 1 + 1,
          last_failure_time := some t3,
          opened_at := some t3,
          state_changes := s0.state_changes + 1 }⟩ : Breaker) rfl rfl h4
  refine ⟨rfl, rfl, ?_, ?_⟩
  · simp [call, hA]
  · rw [call_trace_of_rejected _ _ o4 _ (by rw [hA])]
    simp

/-- Witness for **C5**: `demoCfg` (threshold 3), fresh stats, classified
error kind 0 at times 0, 0, 5; the fourth call at time 6 (elapsed 1 < 10) is
rejected without invocation. -/
theorem three_failures_open_then_reject_witness :
    demoCfg.failure_threshold = 3 ∧ Stats.initStats.failures = 0 ∧
    (6:ℚ) - 5 < demoCfg.timeout_seconds ∧
    ((callRun ⟨"svc", demoCfg, CircuitState.closed, Stats.initStats⟩
        [(0, Outcome.err 0), (0, Outcome.err 0), (5, Outcome.err 0)]).state
      = CircuitState.opened ∧
    (callRun ⟨"svc", demoCfg, CircuitState.closed, Stats.initStats⟩
        [(0, Outcome.err 0), (0, Outcome.err 0), (5, Outcome.err 0)]).stats.opened_at
      = some 5 ∧
    (call 6 (callRun ⟨"svc", demoCfg, CircuitState.closed, Stats.initStats⟩
        [(0, Outcome.err 0), (0, Outcome.err 0), (5, Outcome.err 0)]) (Outcome.ok 1)).result
      = CallResult.rejected "svc"
          (retry_after_of 6 (callRun ⟨"svc", demoCfg, CircuitState.closed, Stats.initStats⟩
            [(0, Outcome.err 0), (0, Outcome.err 0), (5, Outcome.err 0)])) ∧
    Ev.invoke ∉ (call 6 (callRun ⟨"svc", demoCfg, CircuitState.closed, Stats.initStats⟩
        [(0, Outcome.err 0), (0, Outcome.err 0), (5, Outcome.err 0)]) (Outcome.ok 1)).trace) :=
  ⟨rfl, rfl, by norm_num [demoCfg],
    three_failures_open_then_reject "svc" demoCfg Stats.initStats rfl rfl
      0 0 0 rfl rfl rfl 0 0 5 6 (by norm_num [demoCfg]) (Outcome.ok 1) _ rfl⟩

/-- **C6.**  For a call arriving while the breaker is OPEN with
`opened_at = t` (a positive wall-clock instant): if `now - t` has reached
`timeout_seconds` the admission prefix moves the breaker to HALF_OPEN with
`successes = 0` and the call is admitted (the wrapped operation is invoked);
otherwise the call is rejected with a `CircuitBreakerError` carrying the
service name and `retry_after = max(0, timeout_seconds - elapsed)`, and the
wrapped operation is not executed. -/
theorem open_call_recovers_or_rejects (now t : ℚ) (b : Breaker) (o : Outcome)
    (hs : b.state = CircuitState.opened) (hoa : b.stats.opened_at = some t)
    (ht : 0 < t) :
    (b.config.timeout_seconds ≤ now - t →
      (admitStep now b).2 = none ∧
      (admitStep now b).1.state = CircuitState.halfOpen ∧
      (admitStep now b).1.stats.successes = 0 ∧
      Ev.invoke ∈ (call now b o).trace) ∧
    (now - t < b.config.timeout_seconds →
      (call now b o).result =
        CallResult.rejected b.service_name
          (some (max 0 (b.config.timeout_seconds - (now - t)))) ∧
      Ev.invoke ∉ (call now b o).trace) := by
  constructor
  · intro hle
    have hA := admitStep_recovers now t b hs hoa hle
    refine ⟨by rw [hA], by rw [hA], by rw [hA], ?_⟩
    rw [call_trace_of_admitted now b o (by rw [hA])]
    simp
  · intro hlt
    have hA := admitStep_rejects now t b hs hoa hlt
    have ht0 : ¬ t = 0 := by
      intro h0
      rw [h0] at ht
      exact absurd ht (lt_irrefl 0)
    have hra : retry_after_of now b =
        some (max 0 (b.config.timeout_seconds - (now - t))) := by
      simp [retry_after_of, hoa, ht0]
    constructor
    · simp [call, hA, hra]
    · rw [call_trace_of_rejected now b o _ (by rw [hA])]
      simp

/-- Witness for **C6**: `demoOpenBreaker` (OPEN since `t = 5`, timeout 10)
probed at `now = 6`. -/
theorem open_call_recovers_or_rejects_witness :
    demoOpenBreaker.state = CircuitState.opened ∧
    demoOpenBreaker.stats.opened_at = some 5 ∧ (0:ℚ) < 5 ∧
    ((demoOpenBreaker.config.timeout_seconds ≤ 6 - 5 →
      (admitStep 6 demoOpenBreaker).2 = none ∧
      (admitStep 6 demoOpenBreaker).1.state = CircuitState.halfOpen ∧
      (admitStep 6 demoOpenBreaker).1.stats.successes = 0 ∧
      Ev.invoke ∈ (call 6 demoOpenBreaker (Outcome.ok 0)).trace) ∧
    (6 - 5 < demoOpenBreaker.config.timeout_seconds →
      (call 6 demoOpenBreaker (Outcome.ok 0)).result =
        CallResult.rejected demoOpenBreaker.service_name
          (some (max 0 (demoOpenBreaker.config.timeout_seconds - (6 - 5)))) ∧
      Ev.invoke ∉ (call 6 demoOpenBreaker (Outcome.ok 0)).trace)) :=
  ⟨rfl, rfl, by norm_num,
    open_call_recovers_or_rejects 6 5 demoOpenBreaker (Outcome.ok 0) rfl rfl
      (by norm_num)⟩

/-- **C7.**  With `success_threshold = 2` and a breaker in HALF_OPEN whose
success counter is 0 (as it is on entry to HALF_OPEN), two consecutive
successful guarded calls close the circuit and reset `failures` to 0. -/
theorem half_open_two_successes_close
    (name : String) (cfg : Config) (s0 : Stats)
    (hth : cfg.success_threshold = 2) (hs0 : s0.successes = 0)
    (t1 t2 : ℚ) (v1 v2 : ℤ) (b2 : Breaker)
    (hb2 : b2 = callRun ⟨name, cfg, CircuitState.halfOpen, s0⟩
      [(t1, Outcome.ok v1), (t2, Outcome.ok v2)]) :
    b2.state = CircuitState.closed ∧ b2.stats.failures = 0 := by
  subst hb2
  have h1 : (call t1 (⟨name, cfg, CircuitState.halfOpen, s0⟩ : Breaker)
        (Outcome.ok v1)).post
      = ⟨name, cfg, CircuitState.halfOpen,
          { s0 with
              successes := s0.successes + 1,
              total_requests := s0.total_requests + 1,
              last_success_time := some t1 }⟩ := by
    rw [call_half_open_success t1 _ v1 rfl, if_neg (by simp [hth, hs0])]
  have h2 : (call t2 (⟨name, cfg, CircuitState.halfOpen,
        { s0 with
            successes := s0.successes + 1,
            total_requests := s0.total_requests + 1,
            last_success_time := some t1 }⟩ : Breaker) (Outcome.ok v2)).post
      = ⟨name, cfg, CircuitState.closed,
          { s0 with
              successes := s0.successes + 1 + 1,
              total_requests := s0.total_requests + 1 + 1,
              last_success_time := some t2,
              failures := 0,
              state_changes := s0.state_changes + 1 }⟩ := by
    rw [call_half_open_success t2 _ v2 rfl, if_pos (by simp [hth, hs0])]
  simp only [callRun]
  rw [h1, h2]
  exact ⟨rfl, rfl⟩

/-- Witness for **C7**: `demoCfg` (success threshold 2), HALF_OPEN with fresh
stats, successes at times 1 and 2. -/
theorem half_open_two_successes_close_witness :
    demoCfg.success_threshold = 2 ∧ Stats.initStats.successes = 0 ∧
    ((callRun ⟨"svc", demoCfg, CircuitState.halfOpen, Stats.initStats⟩
        [(1, Outcome.ok 0), (2, Outcome.ok 0)]).state = CircuitState.closed ∧
      (callRun ⟨"svc", demoCfg, CircuitState.halfOpen, Stats.initStats⟩
        [(1, Outcome.ok 0), (2, Outcome.ok 0)]).stats.failures = 0) :=
  ⟨rfl, rfl,
    half_open_two_successes_close "svc" demoCfg Stats.initStats rfl rfl
      1 2 0 0 _ rfl⟩

end CircuitBreaker

namespace CircuitBreaker

/-- Shared helper: a breaker whose recovery check fires is OPEN. -/
theorem should_attempt_recovery_opened (now : ℚ) (b : Breaker)
    (h : should_attempt_recovery now b = true) :
    b.state = CircuitState.opened := by
  by_contra hne
  simp [should_attempt_recovery, hne] at h

/-- Shared helper: the breaker produced by the admission prefix. -/
theorem admitStep_fst (now : ℚ) (b : Breaker) :
    (admitStep now b).1 =
      if should_attempt_recovery now b then transition_to_half_open b else b := by
  simp only [admitStep]
  split <;> split <;> rfl

/-- Shared helper: the admission prefix never touches the service name, the
config, the failure counter, or the request counter. -/
theorem admitStep_fst_preserves (now : ℚ) (b : Breaker) :
    (admitStep now b).1.service_name = b.service_name ∧
    (admitStep now b).1.config = b.config ∧
    (admitStep now b).1.stats.failures = b.stats.failures ∧
    (admitStep now b).1.stats.total_requests = b.stats.total_requests := by
  rw [admitStep_fst now b]
  split
  · unfold transition_to_half_open
    split <;> exact ⟨rfl, rfl, rfl, rfl⟩
  · exact ⟨rfl, rfl, rfl, rfl⟩

/-- Shared helper: an error not matching `expected_exception` skips the
`except` handler entirely: the call re-raises it and the breaker is exactly
what the admission prefix produced. -/
theorem call_unclassified_error (now : ℚ) (b : Breaker) (e : ℕ)
    (he : b.config.expected e = false) (hadm : (admitStep now b).2 = none) :
    call now b (Outcome.err e) =
      { post := (admitStep now b).1, result := CallResult.raised e,
        trace := [Ev.acquire, Ev.invoke, Ev.release] } := by
  rcases hA : admitStep now b with ⟨b1, r⟩
  rw [hA] at hadm
  simp only at hadm
  subst hadm
  have hcfg : b1.config = b.config := by
    have hp := admitStep_fst_preserves now b
    rw [hA] at hp
    exact hp.2.1
  have hne : ¬ (b1.config.expected e = true) := by
    rw [hcfg, he]
    simp
  simp only [call, hA]
  rw [if_neg hne]

end CircuitBreaker

namespace CircuitBreaker

/-- **C8 counterexample.**  The claim says a non-classified error leaves
phase and `successes` (among others) unchanged.  Take `demoOpenBreaker`
(OPEN since 5, `successes = 3`, timeout 10) and a call at time 20 whose
operation raises the non-classified error kind 1: the error is re-raised,
yet the phase has changed from OPEN to HALF_OPEN and `successes` from 3 to 0,
because the admission prefix performed the lazy OPEN → HALF_OPEN recovery
transition before the operation ran. -/
theorem non_retryable_error_changes_phase :
    demoCfg.expected 1 = false ∧
    (call 20 demoOpenBreaker (Outcome.err 1)).result = CallResult.raised 1 ∧
    demoOpenBreaker.state = CircuitState.opened ∧
    (call 20 demoOpenBreaker (Outcome.err 1)).post.state = CircuitState.halfOpen ∧
    demoOpenBreaker.stats.successes = 3 ∧
    (call 20 demoOpenBreaker (Outcome.err 1)).post.stats.successes = 0 := by
  have hA := admitStep_recovers 20 5 demoOpenBreaker rfl rfl
    (by norm_num [demoOpenBreaker, demoCfg])
  have hcall := call_unclassified_error 20 demoOpenBreaker 1 rfl (by rw [hA])
  rw [hA] at hcall
  refine ⟨rfl, ?_, rfl, ?_, rfl, ?_⟩ <;> rw [hcall]

/-- **C8 amended.**  When the guarded operation raises an error outside
`retryableErrors` on an admitted call, the error propagates unchanged and
`failures` and `totalRequests` are untouched; moreover, if the breaker was
not OPEN at entry (so no lazy recovery transition happened at admission),
the whole breaker — phase and every stats field — is unchanged.  (When the
call was admitted from OPEN via the recovery check, the phase is HALF_OPEN
and `successes` is 0 from admission onward, a change made before the
operation ran, not by the error.) -/
theorem non_retryable_error_frame (now : ℚ) (b : Breaker) (e : ℕ)
    (he : b.config.expected e = false) (hadm : (admitStep now b).2 = none) :
    (call now b (Outcome.err e)).result = CallResult.raised e ∧
    (call now b (Outcome.err e)).post.stats.failures = b.stats.failures ∧
    (call now b (Outcome.err e)).post.stats.total_requests
      = b.stats.total_requests ∧
    (b.state ≠ CircuitState.opened → (call now b (Outcome.err e)).post = b) := by
  have hcall := call_unclassified_error now b e he hadm
  have hpres := admitStep_fst_preserves now b
  refine ⟨by rw [hcall], ?_, ?_, ?_⟩
  · rw [hcall]
    exact hpres.2.2.1
  · rw [hcall]
    exact hpres.2.2.2
  · intro hne
    rw [hcall]
    show (admitStep now b).1 = b
    rw [admitStep_of_not_opened now b hne]

/-- Witness for **C8 amended**: `demoClosedBreaker` (CLOSED, fresh stats) and
the non-classified error kind 1 at time 0. -/
theorem non_retryable_error_frame_witness :
    demoClosedBreaker.config.expected 1 = false ∧
    (admitStep 0 demoClosedBreaker).2 = none ∧
    ((call 0 demoClosedBreaker (Outcome.err 1)).result = CallResult.raised 1 ∧
      (call 0 demoClosedBreaker (Outcome.err 1)).post.stats.failures
        = demoClosedBreaker.stats.failures ∧
      (call 0 demoClosedBreaker (Outcome.err 1)).post.stats.total_requests
        = demoClosedBreaker.stats.total_requests ∧
      (demoClosedBreaker.state ≠ CircuitState.opened →
        (call 0 demoClosedBreaker (Outcome.err 1)).post = demoClosedBreaker)) :=
  ⟨rfl, rfl, non_retryable_error_frame 0 demoClosedBreaker 1 rfl rfl⟩

/-- **C9 counterexample.**  The claim says the lock is released before the
wrapped operation executes.  In the trace of an admitted call
(`demoClosedBreaker` at time 0, operation returns 7) the operation is
invoked, yet no `release` of the breaker's lock precedes the `invoke`: the
whole body of `call`, including the operation, runs inside
`async with self._lock`. -/
theorem lock_not_released_before_invoke :
    Ev.invoke ∈ (call 0 demoClosedBreaker (Outcome.ok 7)).trace ∧
    releasedBeforeInvoke (call 0 demoClosedBreaker (Outcome.ok 7)).trace
      = false := by
  have hA : admitStep 0 demoClosedBreaker = (demoClosedBreaker, none) :=
    admitStep_of_not_opened 0 demoClosedBreaker
      (fun h => CircuitState.noConfusion h)
  have htr := call_trace_of_admitted 0 demoClosedBreaker (Outcome.ok 7)
    (by rw [hA])
  rw [htr]
  exact ⟨by simp, rfl⟩

/-- **C9 amended.**  The wrapped operation runs strictly inside the lock
span: in every call, whenever the operation is invoked the trace is
acquire–invoke–release, and in no call does a lock release precede the
invocation.  A slow guarded call therefore does serialize other callers of
the same breaker. -/
theorem operation_runs_inside_lock (now : ℚ) (b : Breaker) (o : Outcome) :
    (Ev.invoke ∈ (call now b o).trace →
      (call now b o).trace = [Ev.acquire, Ev.invoke, Ev.release]) ∧
    releasedBeforeInvoke (call now b o).trace = false := by
  rcases hA : admitStep now b with ⟨b1, r⟩
  cases r with
  | none =>
      have h := call_trace_of_admitted now b o (by rw [hA])
      rw [h]
      exact ⟨fun _ => rfl, rfl⟩
  | some p =>
      have h := call_trace_of_rejected now b o p (by rw [hA])
      rw [h]
      refine ⟨?_, rfl⟩
      intro hmem
      simp at hmem

/-- Witness for **C9 amended**, discharging its trace implication at a
concrete admitted call. -/
theorem operation_runs_inside_lock_witness :
    (Ev.invoke ∈ (call 1 demoClosedBreaker (Outcome.ok 7)).trace →
      (call 1 demoClosedBreaker (Outcome.ok 7)).trace
        = [Ev.acquire, Ev.invoke, Ev.release]) ∧
    releasedBeforeInvoke (call 1 demoClosedBreaker (Outcome.ok 7)).trace
      = false :=
  operation_runs_inside_lock 1 demoClosedBreaker (Outcome.ok 7)

/-- **C10.**  Whenever `call` rejects the caller with
`CircuitBreakerError`, the breaker afterwards — state and every
`CircuitBreakerStats` field — is exactly the breaker before the call. -/
theorem rejected_call_frame (now : ℚ) (b : Breaker) (o : Outcome)
    (s : String) (ra : Option ℚ)
    (h : (call now b o).result = CallResult.rejected s ra) :
    (call now b o).post = b := by
  rcases hA : admitStep now b with ⟨b1, r⟩
  cases r with
  | some p =>
      have hfst := admitStep_of_rejecting now b p (by rw [hA])
      rw [hA] at hfst
      simp only at hfst
      have htr : call now b o =
          { post := b1, result := CallResult.rejected p.1 p.2,
            trace := [Ev.acquire, Ev.reject, Ev.release] } := by
        simp [call, hA]
      rw [htr]
      exact hfst
  | none =>
      exfalso
      cases o with
      | ok v => simp [call, hA] at h
      | err e =>
          simp only [call, hA] at h
          split at h <;> simp at h

/-- Witness for **C10**: `demoOpenBreaker` (OPEN since 5, timeout 10) called
at time 6 rejects with `retry_after = 9` and is left unchanged. -/
theorem rejected_call_frame_witness :
    (call 6 demoOpenBreaker (Outcome.ok 0)).result
        = CallResult.rejected "svc" (some 9) ∧
    (call 6 demoOpenBreaker (Outcome.ok 0)).post = demoOpenBreaker := by
  have hA := admitStep_rejects 6 5 demoOpenBreaker rfl rfl
    (by norm_num [demoOpenBreaker, demoCfg])
  have hra : retry_after_of 6 demoOpenBreaker = some 9 := by
    norm_num [retry_after_of, demoOpenBreaker, demoCfg, Stats.initStats]
  have hres : (call 6 demoOpenBreaker (Outcome.ok 0)).result
      = CallResult.rejected "svc" (some 9) := by
    simp only [call, hA]
    rw [hra]
    rfl
  exact ⟨hres, rejected_call_frame 6 demoOpenBreaker (Outcome.ok 0) "svc" (some 9) hres⟩

end CircuitBreaker
